import Mathlib

/-!
Verification of the beteseb end-to-end encrypted messaging core.

This file gives a shallow embedding of the repository's encryption
subsystem (`EncryptionService` in `services/encryptionService.ts`), the
messaging facade (`ChatService` in `services/chatService.ts`), and the
caller-side guard (`sendMessage` in `app/context/ChatContext.tsx`), and
proves the specification's claims about them.

Platform primitives (WebCrypto AES-GCM / RSA-OAEP, `btoa`/`atob`,
`TextEncoder`/`TextDecoder`) are not repository code; they are modelled
here by executable idealizations that expose exactly the interface
properties the code relies on (determinism of the codec, AEAD integrity
binding ciphertext to key and nonce, OAEP wrapping binding the wrapped
bytes to the key pair). Repository functions are translated line by line.
-/

/-! ## Base64 codec: model of `btoa` / `atob`

`arrayBufferToBase64` builds a binary string whose code units are exactly
the byte values (all `< 256` since they come from a `Uint8Array`) and
passes it to `btoa`; `base64ToArrayBuffer` applies `atob` and reads the
code units back.  Bytes are modelled as `Nat` with explicit `< 256`
bounds. -/

/-- Character of the standard base64 alphabet for a sextet `n < 64`. -/
def b64char (n : Nat) : Char :=
  Char.ofNat (if n < 26 then 65 + n else if n < 52 then 71 + n
    else if n < 62 then n - 4 else if n = 62 then 43 else 47)

/-- Inverse alphabet lookup; `none` on a character outside the base64 alphabet. -/
def b64val (c : Char) : Option Nat :=
  if 65 ≤ c.toNat ∧ c.toNat ≤ 90 then some (c.toNat - 65)
  else if 97 ≤ c.toNat ∧ c.toNat ≤ 122 then some (c.toNat - 71)
  else if 48 ≤ c.toNat ∧ c.toNat ≤ 57 then some (c.toNat + 4)
  else if c.toNat = 43 then some 62
  else if c.toNat = 47 then some 63
  else none

/-- Base64 encoding of a byte list, three bytes to four characters, with
padding by `=` on a final chunk of one or two bytes. -/
def b64encodeAux : List Nat → List Char
  | [] => []
  | [a] => [b64char (a / 4), b64char (a % 4 * 16), '=', '=']
  | [a, b] => [b64char (a / 4), b64char (a % 4 * 16 + b / 16), b64char (b % 16 * 4), '=']
  | a :: b :: c :: rest =>
    b64char (a / 4) :: b64char (a % 4 * 16 + b / 16) :: b64char (b % 16 * 4 + c / 64) ::
      b64char (c % 64) :: b64encodeAux rest

/-- Base64 decoding, four characters to three bytes, accepting `=` padding
only at the very end; `none` on malformed input (model of the
`InvalidCharacterError` thrown by `atob`). -/
def b64decodeAux : List Char → Option (List Nat)
  | [] => some []
  | c1 :: c2 :: c3 :: c4 :: rest =>
    match b64val c1, b64val c2 with
    | some v1, some v2 =>
      if c3 = '=' then
        if c4 = '=' ∧ rest = [] then some [v1 * 4 + v2 / 16] else none
      else
        match b64val c3 with
        | some v3 =>
          if c4 = '=' then
            if rest = [] then some [v1 * 4 + v2 / 16, v2 % 16 * 16 + v3 / 4] else none
          else
            match b64val c4, b64decodeAux rest with
            | some v4, some r =>
              some ((v1 * 4 + v2 / 16) :: (v2 % 16 * 16 + v3 / 4) :: (v3 % 4 * 64 + v4) :: r)
            | _, _ => none
        | none => none
    | _, _ => none
  | _ => none

/-- Model of `btoa`: fails unless every code unit of the binary string is `< 256`. -/
def btoa (codes : List Nat) : Option String :=
  if codes.all (fun b => b < 256) then some (String.mk (b64encodeAux codes)) else none

/-- Model of `atob` acting on the code units of the binary string. -/
def atob (s : String) : Option (List Nat) :=
  b64decodeAux s.data

/-- Base64 text of a byte list: the string `btoa` returns on a valid
binary string. -/
def b64Text (l : List Nat) : String :=
  String.mk (b64encodeAux l)

/-! ## UTF-8: model of `TextEncoder` / `TextDecoder`

`TextEncoder().encode` emits the UTF-8 bytes of the string;
`TextDecoder().decode` (default, non-fatal) parses UTF-8 and emits
U+FFFD on malformed input.  The encoder below is the standard UTF-8
byte layout; the decoder is exact on well-formed input, and its
replacement policy on malformed input (one U+FFFD per presumed
sequence) approximates the WHATWG decoder, which no claim exercises. -/

/-- Bytes of the UTF-8 encoding of the code point `n`. -/
def utf8EncodeChar (n : Nat) : List Nat :=
  if n < 0x80 then [n]
  else if n < 0x800 then [0xC0 + n / 64, 0x80 + n % 64]
  else if n < 0x10000 then [0xE0 + n / 4096, 0x80 + n / 64 % 64, 0x80 + n % 64]
  else [0xF0 + n / 262144, 0x80 + n / 4096 % 64, 0x80 + n / 64 % 64, 0x80 + n % 64]

/-- Model of `TextEncoder().encode`: UTF-8 bytes of the string. -/
def utf8Encode (s : String) : List Nat :=
  s.data.flatMap (fun c => utf8EncodeChar c.toNat)

/-- Decoding step for a two-byte UTF-8 sequence with lead byte `b`:
returns the decoded character (or U+FFFD) and the remaining bytes. -/
def utf8Dec2 (b : Nat) (bs : List Nat) : Char × List Nat :=
  match bs with
  | b1 :: bs1 =>
    if 0x80 ≤ b1 ∧ b1 < 0xC0 then (Char.ofNat ((b - 0xC0) * 64 + (b1 - 0x80)), bs1)
    else (Char.ofNat 0xFFFD, bs1)
  | [] => (Char.ofNat 0xFFFD, [])

/-- Decoding step for a three-byte UTF-8 sequence with lead byte `b`,
rejecting overlong forms and surrogates. -/
def utf8Dec3 (b : Nat) (bs : List Nat) : Char × List Nat :=
  match bs with
  | b1 :: b2 :: bs2 =>
    if (0x80 ≤ b1 ∧ b1 < 0xC0) ∧ (0x80 ≤ b2 ∧ b2 < 0xC0) then
      if 0x800 ≤ (b - 0xE0) * 4096 + (b1 - 0x80) * 64 + (b2 - 0x80) ∧
          ¬(0xD800 ≤ (b - 0xE0) * 4096 + (b1 - 0x80) * 64 + (b2 - 0x80) ∧
            (b - 0xE0) * 4096 + (b1 - 0x80) * 64 + (b2 - 0x80) ≤ 0xDFFF) then
        (Char.ofNat ((b - 0xE0) * 4096 + (b1 - 0x80) * 64 + (b2 - 0x80)), bs2)
      else (Char.ofNat 0xFFFD, bs2)
    else (Char.ofNat 0xFFFD, bs2)
  | _ => (Char.ofNat 0xFFFD, [])

/-- Decoding step for a four-byte UTF-8 sequence with lead byte `b`,
rejecting overlong forms and values beyond U+10FFFF. -/
def utf8Dec4 (b : Nat) (bs : List Nat) : Char × List Nat :=
  match bs with
  | b1 :: b2 :: b3 :: bs3 =>
    if (0x80 ≤ b1 ∧ b1 < 0xC0) ∧ (0x80 ≤ b2 ∧ b2 < 0xC0) ∧ (0x80 ≤ b3 ∧ b3 < 0xC0) then
      if 0x10000 ≤ (b - 0xF0) * 262144 + (b1 - 0x80) * 4096 + (b2 - 0x80) * 64 + (b3 - 0x80) ∧
          (b - 0xF0) * 262144 + (b1 - 0x80) * 4096 + (b2 - 0x80) * 64 + (b3 - 0x80) < 0x110000 then
        (Char.ofNat ((b - 0xF0) * 262144 + (b1 - 0x80) * 4096 + (b2 - 0x80) * 64 + (b3 - 0x80)), bs3)
      else (Char.ofNat 0xFFFD, bs3)
    else (Char.ofNat 0xFFFD, bs3)
  | _ => (Char.ofNat 0xFFFD, [])

theorem utf8Dec2_len (b : Nat) (bs : List Nat) : (utf8Dec2 b bs).2.length ≤ bs.length := by
  cases bs with
  | nil => simp [utf8Dec2]
  | cons b1 bs1 =>
    simp only [utf8Dec2]
    split <;> simp

theorem utf8Dec3_len (b : Nat) (bs : List Nat) : (utf8Dec3 b bs).2.length ≤ bs.length := by
  cases bs with
  | nil => simp [utf8Dec3]
  | cons b1 bs1 =>
    cases bs1 with
    | nil => simp [utf8Dec3]
    | cons b2 bs2 =>
      simp only [utf8Dec3]
      split
      · split <;> (simp; omega)
      · simp
        omega

theorem utf8Dec4_len (b : Nat) (bs : List Nat) : (utf8Dec4 b bs).2.length ≤ bs.length := by
  cases bs with
  | nil => simp [utf8Dec4]
  | cons b1 bs1 =>
    cases bs1 with
    | nil => simp [utf8Dec4]
    | cons b2 bs2 =>
      cases bs2 with
      | nil => simp [utf8Dec4]
      | cons b3 bs3 =>
        simp only [utf8Dec4]
        split
        · split <;> (simp; omega)
        · simp
          omega

/-- UTF-8 parser underlying the `TextDecoder` model: decodes well-formed
sequences exactly; malformed input yields U+FFFD replacement characters. -/
def utf8DecodeAux : List Nat → List Char
  | [] => []
  | b :: bs =>
    if b < 0x80 then Char.ofNat b :: utf8DecodeAux bs
    else if b < 0xC2 then Char.ofNat 0xFFFD :: utf8DecodeAux bs
    else if b < 0xE0 then (utf8Dec2 b bs).1 :: utf8DecodeAux (utf8Dec2 b bs).2
    else if b < 0xF0 then (utf8Dec3 b bs).1 :: utf8DecodeAux (utf8Dec3 b bs).2
    else if b < 0xF5 then (utf8Dec4 b bs).1 :: utf8DecodeAux (utf8Dec4 b bs).2
    else Char.ofNat 0xFFFD :: utf8DecodeAux bs
  termination_by l => l.length
  decreasing_by
  · simp
  · simp
  · have := utf8Dec2_len b bs
    simp
    omega
  · have := utf8Dec3_len b bs
    simp
    omega
  · have := utf8Dec4_len b bs
    simp
    omega
  · simp

/-- Model of `TextDecoder().decode`. -/
def utf8DecodeLossy (bs : List Nat) : String :=
  String.mk (utf8DecodeAux bs)

/-! ## Idealized WebCrypto primitives

AES-256-GCM and RSA-OAEP are platform primitives (`crypto.subtle`), not
repository code.  They are modelled symbolically but executably:

* an AES key is its exported raw bytes (the code only ever exports and
  re-imports it); a ciphertext is the encrypted payload followed by an
  authentication tag binding payload, key and nonce, and decryption
  fails (`none`, the `OperationError` of WebCrypto) unless the tag
  verifies — the defining property of AEAD;
* an RSA key pair is derived from the generator's entropy; wrapping
  appends a tag binding the wrapped bytes to the key pair, and
  unwrapping with the matching private key recovers them, failing on
  any corruption — the defining property of OAEP.

The tag is a byte-valued checksum, which a single-byte change of any
input always alters. -/

/-- Sum of a byte list, the basis of the model's authentication tags. -/
def checksum : List Nat → Nat
  | [] => 0
  | b :: r => b + checksum r

/-- Authentication tag of the AES-GCM model, binding key, nonce and plaintext. -/
def aesTag (key iv m : List Nat) : Nat :=
  (checksum key + checksum iv + checksum m) % 256

/-- Model of `crypto.subtle.encrypt` with AES-GCM: payload plus tag. -/
def aesGcmEncrypt (key iv m : List Nat) : List Nat :=
  m ++ [aesTag key iv m]

/-- Model of `crypto.subtle.decrypt` with AES-GCM: verify the tag, else fail. -/
def aesGcmDecrypt (key iv c : List Nat) : Option (List Nat) :=
  match c.getLast? with
  | none => none
  | some t => if t = aesTag key iv c.dropLast then some c.dropLast else none

/-- Wrapping tag of the RSA-OAEP model, binding the wrapped bytes to the
public key. -/
def rsaWrapTag (pub : Nat) (k : List Nat) : Nat :=
  (pub + checksum k) % 256

/-- Model of `crypto.subtle.encrypt` with RSA-OAEP: wrapped bytes plus tag. -/
def rsaOaepEncrypt (pub : Nat) (k : List Nat) : List Nat :=
  k ++ [rsaWrapTag pub k]

/-- Model of `crypto.subtle.decrypt` with RSA-OAEP under the private key
`priv`: recovers the wrapped bytes when `priv` matches the public key the
bytes were wrapped for (the pair produced by `generateKeyPair`), else fails. -/
def rsaOaepDecrypt (priv : Nat) (w : List Nat) : Option (List Nat) :=
  match w.getLast? with
  | none => none
  | some t => if t = rsaWrapTag (priv - 1) w.dropLast then some w.dropLast else none

/-! ## EncryptionService (`services/encryptionService.ts`)

Keys are JWK strings in the source; the model identifies a key with the
numeric key material inside the JWK, so `JSON.stringify`/`JSON.parse` and
`crypto.subtle.importKey`/`exportKey` are identities.  `SecureStore` is a
state record with the two slots `user_private_key` / `user_public_key`
(`none` models an absent item). -/

/-- The two `SecureStore` slots the service uses. -/
structure Storage where
  privateKey : Option Nat
  publicKey : Option Nat
deriving DecidableEq

/-- Error taxonomy of the decryption path: the `'Private key not found'`
throw, a malformed-base64 throw from `atob`, and the WebCrypto
`OperationError` on integrity failure. -/
inductive DecryptError where
  | keyNotFound
  | malformedEncoding
  | decryptionFailed
deriving DecidableEq

/-- Wire format produced by `encryptMessage` (all three fields base64). -/
structure EncryptedMessage where
  encryptedContent : String
  encryptedKey : String
  iv : String
deriving DecidableEq

namespace EncryptionService

/-- Model of `generateKeyPair`: a fresh RSA-OAEP pair derived from the
generator's entropy `seed`; returns `(publicKey, privateKey)`.  The
matching private key of public key `p` is `p + 1`. -/
def generateKeyPair (seed : Nat) : Nat × Nat :=
  (2 * seed, 2 * seed + 1)

/-- Model of `storePrivateKey`. -/
def storePrivateKey (st : Storage) (privateKey : Nat) : Storage :=
  { st with privateKey := some privateKey }

/-- Model of `storePublicKey`. -/
def storePublicKey (st : Storage) (publicKey : Nat) : Storage :=
  { st with publicKey := some publicKey }

/-- Model of `getPrivateKey`. -/
def getPrivateKey (st : Storage) : Option Nat :=
  st.privateKey

/-- Model of `getPublicKey`. -/
def getPublicKey (st : Storage) : Option Nat :=
  st.publicKey

/-- Model of `hasKeys`: true iff the private-key slot is non-null. -/
def hasKeys (st : Storage) : Bool :=
  st.privateKey.isSome

/-- Model of `clearKeys`: deletes both slots. -/
def clearKeys (_st : Storage) : Storage :=
  { privateKey := none, publicKey := none }

/-- Model of `arrayBufferToBase64`: the loop builds a binary string whose
code units are the buffer's bytes, then applies `btoa`. -/
def arrayBufferToBase64 (buffer : List Nat) : Option String :=
  btoa buffer

/-- Model of `base64ToArrayBuffer`: `atob`, then read the code units back
as bytes. -/
def base64ToArrayBuffer (base64 : String) : Option (List Nat) :=
  atob base64

/-- Model of `encryptMessage`: fresh AES key `aesKey` and fresh IV `iv`
(the randomness of steps 1 and 2, passed explicitly), AES-GCM encrypt the
UTF-8 bytes of `message`, wrap the AES key under `recipientPublicKey`,
and base64 all three buffers. -/
def encryptMessage (message : String) (recipientPublicKey : Nat)
    (aesKey iv : List Nat) : Option EncryptedMessage := do
  let messageData := utf8Encode message
  let encryptedMessageBuffer := aesGcmEncrypt aesKey iv messageData
  let encryptedKeyBuffer := rsaOaepEncrypt recipientPublicKey aesKey
  let encryptedContent ← arrayBufferToBase64 encryptedMessageBuffer
  let encryptedKey ← arrayBufferToBase64 encryptedKeyBuffer
  let ivText ← arrayBufferToBase64 iv
  pure { encryptedContent := encryptedContent, encryptedKey := encryptedKey, iv := ivText }

/-- Model of `decryptMessage`: load the private key (failing with
`keyNotFound` when absent), unwrap the AES key, AES-GCM decrypt the
content under the envelope's IV, and decode the bytes as UTF-8. -/
def decryptMessage (st : Storage) (encryptedMessage : EncryptedMessage) :
    Except DecryptError String :=
  match getPrivateKey st with
  | none => .error .keyNotFound
  | some privateKey =>
    match base64ToArrayBuffer encryptedMessage.encryptedKey with
    | none => .error .malformedEncoding
    | some encryptedKeyBuffer =>
      match rsaOaepDecrypt privateKey encryptedKeyBuffer with
      | none => .error .decryptionFailed
      | some aesKeyData =>
        match base64ToArrayBuffer encryptedMessage.encryptedContent,
            base64ToArrayBuffer encryptedMessage.iv with
        | some encryptedContentBuffer, some iv =>
          match aesGcmDecrypt aesKeyData iv encryptedContentBuffer with
          | none => .error .decryptionFailed
          | some decryptedBuffer => .ok (utf8DecodeLossy decryptedBuffer)
        | _, _ => .error .malformedEncoding

/-- Model of `initializeEncryption`: if keys exist and a public key is
stored, return it; otherwise generate a fresh pair (from entropy `seed`),
store both halves, and return the new public key. -/
def initializeEncryption (st : Storage) (seed : Nat) : Nat × Storage :=
  if hasKeys st then
    match getPublicKey st with
    | some existingPublicKey => (existingPublicKey, st)
    | none =>
      let (publicKey, privateKey) := generateKeyPair seed
      (publicKey, storePublicKey (storePrivateKey st privateKey) publicKey)
  else
    let (publicKey, privateKey) := generateKeyPair seed
    (publicKey, storePublicKey (storePrivateKey st privateKey) publicKey)

end EncryptionService

/-! ## ChatService (`services/chatService.ts`)

Database rows of the `messages` table and the `Message` values returned
to the UI.  The `encrypted_key` and `iv` columns are nullable text;
JavaScript truthiness on them (`msg.encrypted_key && msg.iv`) is false
for both `null` and the empty string. -/

/-- Row of the `messages` table as returned by the store. -/
structure MessageRow where
  id : Nat
  sender_id : String
  receiver_id : String
  content : String
  encrypted_key : Option String
  iv : Option String
  is_read : Bool
  created_at : Nat
deriving DecidableEq

/-- The `Message` value of `types/chat.ts` handed to the UI layer. -/
structure Message where
  id : Nat
  senderId : String
  receiverId : String
  content : String
  timestamp : Nat
  isRead : Bool
deriving DecidableEq

/-- The `Omit<Message, 'id' | 'timestamp'>` argument of `sendMessage`. -/
structure NewMessage where
  senderId : String
  receiverId : String
  content : String
  isRead : Bool
deriving DecidableEq

/-- JavaScript truthiness of a nullable text column: false for `null`
(absent) and for the empty string. -/
def truthy : Option String → Bool
  | none => false
  | some s => !(s == "")

namespace ChatService

/-- Body of the `data.map` in `getMessages`: decrypt the row when it is
encrypted and addressed to the querying user, substituting the
`'[Encrypted message - unable to decrypt]'` placeholder when decryption
throws; otherwise pass the stored content through. -/
def decryptRow (st : Storage) (userId : String) (msg : MessageRow) : Message :=
  let decryptedContent :=
    if truthy msg.encrypted_key ∧ truthy msg.iv ∧ msg.receiver_id = userId then
      match EncryptionService.decryptMessage st
          { encryptedContent := msg.content,
            encryptedKey := msg.encrypted_key.getD "",
            iv := msg.iv.getD "" } with
      | .ok s => s
      | .error _ => "[Encrypted message - unable to decrypt]"
    else msg.content
  { id := msg.id, senderId := msg.sender_id, receiverId := msg.receiver_id,
    content := decryptedContent, timestamp := msg.created_at, isRead := msg.is_read }

/-- Model of `getMessages` after the store query: the fetched rows of the
conversation between `userId` and `contactId` are mapped through
`decryptRow`.  The row filtering and ordering are performed by the
external store and are part of the query, not of this code. -/
def getMessages (st : Storage) (userId contactId : String) (rows : List MessageRow) :
    List Message :=
  let _ := contactId
  rows.map (decryptRow st userId)

/-- Model of `sendMessage`.  The encryption randomness (`aesKey`, `ivB`),
the row id and timestamp assigned by the store (`newId`, `now`) and the
store's success (`dbOk`) are explicit parameters.  Returns the persisted
row (`none` when nothing is inserted) and the `Message | null` result:
with a recipient key the content is encrypted (a thrown encryption error
aborts with `null` before any insert); without one the row is inserted
with the plaintext content and empty `encrypted_key`/`iv`, after a
console warning.  The returned `Message` carries the original plaintext. -/
def sendMessage (message : NewMessage) (recipientPublicKey : Option Nat)
    (aesKey ivB : List Nat) (newId now : Nat) (dbOk : Bool) :
    Option MessageRow × Option Message :=
  let enc : Option (String × String × String) :=
    match recipientPublicKey with
    | some pk =>
      match EncryptionService.encryptMessage message.content pk aesKey ivB with
      | some encrypted => some (encrypted.encryptedContent, encrypted.encryptedKey, encrypted.iv)
      | none => none
    | none => some (message.content, "", "")
  match enc with
  | none => (none, none)
  | some (encryptedContent, encryptedKey, iv) =>
    if dbOk then
      let row : MessageRow :=
        { id := newId, sender_id := message.senderId, receiver_id := message.receiverId,
          content := encryptedContent, encrypted_key := some encryptedKey, iv := some iv,
          is_read := message.isRead, created_at := now }
      (some row,
        some { id := newId, senderId := message.senderId, receiverId := message.receiverId,
               content := message.content, timestamp := now, isRead := message.isRead })
    else (none, none)

end ChatService

/-! ## ChatContext (`app/context/ChatContext.tsx`)

The caller-side guard around `ChatService.sendMessage`: look the
recipient up among the contacts, and return without sending when no
public key is available. -/

/-- Contact entry as held in the context state (`publicKey?: string`). -/
structure Contact where
  id : String
  publicKey : Option Nat
deriving DecidableEq

namespace ChatContext

/-- Model of the context's `sendMessage`: without a current user, or when
the recipient's public key is missing, return without calling
`ChatService.sendMessage`; otherwise send and append the returned
message to the state list.  Returns the persisted row and the new
message list. -/
def sendMessage (currentUser : Option String) (contacts : List Contact)
    (messages : List Message) (messageData : NewMessage)
    (aesKey ivB : List Nat) (newId now : Nat) (dbOk : Bool) :
    Option MessageRow × List Message :=
  match currentUser with
  | none => (none, messages)
  | some _ =>
    let recipient := contacts.find? (fun c => c.id == messageData.receiverId)
    match recipient.bind (fun c => c.publicKey) with
    | none => (none, messages)
    | some recipientPublicKey =>
      match ChatService.sendMessage messageData (some recipientPublicKey)
          aesKey ivB newId now dbOk with
      | (row, some newMessage) => (row, messages ++ [newMessage])
      | (row, none) => (row, messages)

end ChatContext

/-! ## Library lemmas about the embedding -/

theorem b64val_b64char : ∀ n, n < 64 → b64val (b64char n) = some n := by decide

theorem b64char_ne_pad : ∀ n, n < 64 → b64char n ≠ '=' := by decide

theorem b64decode_encode (l : List Nat) (h : ∀ b ∈ l, b < 256) :
    b64decodeAux (b64encodeAux l) = some l := by
  induction l using b64encodeAux.induct with
  | case1 => rfl
  | case2 a =>
    have ha : a < 256 := h a (by simp)
    have e1 := b64val_b64char (a / 4) (by omega)
    have e2 := b64val_b64char (a % 4 * 16) (by omega)
    simp [b64encodeAux, b64decodeAux, e1, e2]
    omega
  | case3 a b =>
    have ha : a < 256 := h a (by simp)
    have hb : b < 256 := h b (by simp)
    have e1 := b64val_b64char (a / 4) (by omega)
    have e2 := b64val_b64char (a % 4 * 16 + b / 16) (by omega)
    have e3 := b64val_b64char (b % 16 * 4) (by omega)
    have n3 := b64char_ne_pad (b % 16 * 4) (by omega)
    simp [b64encodeAux, b64decodeAux, e1, e2, e3, n3]
    omega
  | case4 a b c rest ih =>
    have ha : a < 256 := h a (by simp)
    have hb : b < 256 := h b (by simp)
    have hc : c < 256 := h c (by simp)
    have hrest : ∀ x ∈ rest, x < 256 := fun x hx => h x (by simp [hx])
    have e1 := b64val_b64char (a / 4) (by omega)
    have e2 := b64val_b64char (a % 4 * 16 + b / 16) (by omega)
    have e3 := b64val_b64char (b % 16 * 4 + c / 64) (by omega)
    have e4 := b64val_b64char (c % 64) (by omega)
    have n3 := b64char_ne_pad (b % 16 * 4 + c / 64) (by omega)
    have n4 := b64char_ne_pad (c % 64) (by omega)
    simp [b64encodeAux, b64decodeAux, e1, e2, e3, e4, n3, n4, ih hrest]
    omega

theorem btoa_of_bytes (l : List Nat) (h : ∀ b ∈ l, b < 256) :
    btoa l = some (String.mk (b64encodeAux l)) := by
  unfold btoa
  rw [if_pos]
  simpa using h

theorem atob_btoa (l : List Nat) (h : ∀ b ∈ l, b < 256) :
    atob (String.mk (b64encodeAux l)) = some l :=
  b64decode_encode l h

theorem char_toNat_valid (c : Char) :
    c.toNat < 0xD800 ∨ (0xDFFF < c.toNat ∧ c.toNat < 0x110000) := by
  rcases c.valid with h | ⟨h1, h2⟩
  · exact Or.inl (UInt32.toNat_lt_of_lt (by decide) h)
  · exact Or.inr ⟨UInt32.lt_toNat_of_lt (by decide) h1, UInt32.toNat_lt_of_lt (by decide) h2⟩

theorem utf8EncodeChar_lt_256 (n : Nat) (hn : n < 0x110000) :
    ∀ b ∈ utf8EncodeChar n, b < 256 := by
  intro b hb
  unfold utf8EncodeChar at hb
  split at hb
  · simp at hb; omega
  · split at hb
    · simp at hb
      rcases hb with h | h <;> omega
    · split at hb
      · simp at hb
        rcases hb with h | h | h <;> omega
      · simp at hb
        rcases hb with h | h | h | h <;> omega

theorem utf8DecodeAux_encodeChar (n : Nat) (rest : List Nat)
    (hv : n < 0xD800 ∨ (0xDFFF < n ∧ n < 0x110000)) :
    utf8DecodeAux (utf8EncodeChar n ++ rest) = Char.ofNat n :: utf8DecodeAux rest := by
  rcases Nat.lt_or_ge n 0x80 with h1 | h1
  · have e : utf8EncodeChar n = [n] := by rw [utf8EncodeChar, if_pos h1]
    rw [e]
    simp only [List.cons_append, List.nil_append]
    rw [utf8DecodeAux.eq_def]
    simp only [if_pos h1]
  · rcases Nat.lt_or_ge n 0x800 with h2 | h2
    · have e : utf8EncodeChar n = [0xC0 + n / 64, 0x80 + n % 64] := by
        rw [utf8EncodeChar, if_neg (by omega), if_pos h2]
      have c1 : ¬(0xC0 + n / 64 < 0x80) := by omega
      have c2 : ¬(0xC0 + n / 64 < 0xC2) := by omega
      have c3 : 0xC0 + n / 64 < 0xE0 := by omega
      have c4 : 0x80 ≤ 0x80 + n % 64 ∧ 0x80 + n % 64 < 0xC0 := by omega
      have harg : (0xC0 + n / 64 - 0xC0) * 64 + (0x80 + n % 64 - 0x80) = n := by omega
      have e2 : utf8Dec2 (0xC0 + n / 64) ((0x80 + n % 64) :: rest) = (Char.ofNat n, rest) := by
        rw [utf8Dec2, if_pos c4, harg]
      rw [e]
      simp only [List.cons_append, List.nil_append]
      rw [utf8DecodeAux.eq_def]
      simp only [if_neg c1, if_neg c2, if_pos c3, e2]
    · rcases Nat.lt_or_ge n 0x10000 with h3 | h3
      · have e : utf8EncodeChar n = [0xE0 + n / 4096, 0x80 + n / 64 % 64, 0x80 + n % 64] := by
          rw [utf8EncodeChar, if_neg (by omega), if_neg (by omega), if_pos h3]
        have c1 : ¬(0xE0 + n / 4096 < 0x80) := by omega
        have c2 : ¬(0xE0 + n / 4096 < 0xC2) := by omega
        have c3 : ¬(0xE0 + n / 4096 < 0xE0) := by omega
        have c4 : 0xE0 + n / 4096 < 0xF0 := by omega
        have c5 : (0x80 ≤ 0x80 + n / 64 % 64 ∧ 0x80 + n / 64 % 64 < 0xC0) ∧
            (0x80 ≤ 0x80 + n % 64 ∧ 0x80 + n % 64 < 0xC0) := by omega
        have harg : (0xE0 + n / 4096 - 0xE0) * 4096 + (0x80 + n / 64 % 64 - 0x80) * 64 +
            (0x80 + n % 64 - 0x80) = n := by omega
        have e3 : utf8Dec3 (0xE0 + n / 4096) ((0x80 + n / 64 % 64) :: (0x80 + n % 64) :: rest) =
            (Char.ofNat n, rest) := by
          rw [utf8Dec3, if_pos c5, if_pos (by rw [harg]; omega)]
          rw [harg]
        rw [e]
        simp only [List.cons_append, List.nil_append]
        rw [utf8DecodeAux.eq_def]
        simp only [if_neg c1, if_neg c2, if_neg c3, if_pos c4, e3]
      · have h4 : n < 0x110000 := by omega
        have e : utf8EncodeChar n =
            [0xF0 + n / 262144, 0x80 + n / 4096 % 64, 0x80 + n / 64 % 64, 0x80 + n % 64] := by
          rw [utf8EncodeChar, if_neg (by omega), if_neg (by omega), if_neg (by omega)]
        have c1 : ¬(0xF0 + n / 262144 < 0x80) := by omega
        have c2 : ¬(0xF0 + n / 262144 < 0xC2) := by omega
        have c3 : ¬(0xF0 + n / 262144 < 0xE0) := by omega
        have c4 : ¬(0xF0 + n / 262144 < 0xF0) := by omega
        have c5 : 0xF0 + n / 262144 < 0xF5 := by omega
        have c6 : (0x80 ≤ 0x80 + n / 4096 % 64 ∧ 0x80 + n / 4096 % 64 < 0xC0) ∧
            (0x80 ≤ 0x80 + n / 64 % 64 ∧ 0x80 + n / 64 % 64 < 0xC0) ∧
            (0x80 ≤ 0x80 + n % 64 ∧ 0x80 + n % 64 < 0xC0) := by omega
        have harg : (0xF0 + n / 262144 - 0xF0) * 262144 + (0x80 + n / 4096 % 64 - 0x80) * 4096 +
            (0x80 + n / 64 % 64 - 0x80) * 64 + (0x80 + n % 64 - 0x80) = n := by omega
        have e4 : utf8Dec4 (0xF0 + n / 262144)
            ((0x80 + n / 4096 % 64) :: (0x80 + n / 64 % 64) :: (0x80 + n % 64) :: rest) =
            (Char.ofNat n, rest) := by
          rw [utf8Dec4, if_pos c6, if_pos (by rw [harg]; omega)]
          rw [harg]
        rw [e]
        simp only [List.cons_append, List.nil_append]
        rw [utf8DecodeAux.eq_def]
        simp only [if_neg c1, if_neg c2, if_neg c3, if_neg c4, if_pos c5, e4]

theorem utf8_roundtrip (s : String) : utf8DecodeLossy (utf8Encode s) = s := by
  cases s with
  | mk l =>
    have h : utf8DecodeAux (l.flatMap (fun c => utf8EncodeChar c.toNat)) = l := by
      induction l with
      | nil => simp [utf8DecodeAux]
      | cons c cs ih =>
        rw [List.flatMap_cons, utf8DecodeAux_encodeChar c.toNat _ (char_toNat_valid c), ih,
          Char.ofNat_toNat]
    unfold utf8DecodeLossy utf8Encode
    rw [h]

theorem checksum_append (a b : List Nat) : checksum (a ++ b) = checksum a + checksum b := by
  induction a with
  | nil => simp [checksum]
  | cons x xs ih => simp [checksum, ih]; omega

theorem aesGcmDecrypt_encrypt (key iv m : List Nat) :
    aesGcmDecrypt key iv (aesGcmEncrypt key iv m) = some m := by
  unfold aesGcmDecrypt aesGcmEncrypt
  rw [List.getLast?_concat, List.dropLast_concat]
  simp

theorem aesGcmEncrypt_lt_256 (key iv m : List Nat) (hm : ∀ b ∈ m, b < 256) :
    ∀ b ∈ aesGcmEncrypt key iv m, b < 256 := by
  intro b hb
  unfold aesGcmEncrypt at hb
  rcases List.mem_append.mp hb with h | h
  · exact hm b h
  · simp at h
    rw [h]
    unfold aesTag
    omega

theorem rsaOaepEncrypt_lt_256 (pub : Nat) (k : List Nat) (hk : ∀ b ∈ k, b < 256) :
    ∀ b ∈ rsaOaepEncrypt pub k, b < 256 := by
  intro b hb
  unfold rsaOaepEncrypt at hb
  rcases List.mem_append.mp hb with h | h
  · exact hk b h
  · simp at h
    rw [h]
    unfold rsaWrapTag
    omega

theorem rsaOaepDecrypt_encrypt (seed : Nat) (k : List Nat) :
    rsaOaepDecrypt (EncryptionService.generateKeyPair seed).2
      (rsaOaepEncrypt (EncryptionService.generateKeyPair seed).1 k) = some k := by
  unfold rsaOaepDecrypt rsaOaepEncrypt EncryptionService.generateKeyPair
  rw [List.getLast?_concat, List.dropLast_concat]
  simp

theorem btoa_b64Text (l : List Nat) (h : ∀ t ∈ l, t < 256) : btoa l = some (b64Text l) :=
  btoa_of_bytes l h

theorem atob_b64Text (l : List Nat) (h : ∀ t ∈ l, t < 256) : atob (b64Text l) = some l :=
  b64decode_encode l h

theorem utf8Encode_lt_256 (s : String) : ∀ b ∈ utf8Encode s, b < 256 := by
  intro b hb
  unfold utf8Encode at hb
  rcases List.mem_flatMap.mp hb with ⟨c, _, hbc⟩
  have hv := char_toNat_valid c
  exact utf8EncodeChar_lt_256 c.toNat (by omega) b hbc

theorem mem_modified_lt_256 (a b : List Nat) (y : Nat)
    (ha : ∀ t ∈ a, t < 256) (hb : ∀ t ∈ b, t < 256) (hy : y < 256) :
    ∀ t ∈ a ++ y :: b, t < 256 := by
  intro t ht
  rcases List.mem_append.mp ht with h | h
  · exact ha t h
  · rcases List.mem_cons.mp h with rfl | h
    · exact hy
    · exact hb t h

theorem encryptMessage_eq (p : String) (pub : Nat) (aesKey iv : List Nat)
    (hk : ∀ t ∈ aesKey, t < 256) (hiv : ∀ t ∈ iv, t < 256) :
    EncryptionService.encryptMessage p pub aesKey iv =
      some { encryptedContent := b64Text (aesGcmEncrypt aesKey iv (utf8Encode p)),
             encryptedKey := b64Text (rsaOaepEncrypt pub aesKey),
             iv := b64Text iv } := by
  unfold EncryptionService.encryptMessage EncryptionService.arrayBufferToBase64
  dsimp only
  rw [btoa_b64Text _ (aesGcmEncrypt_lt_256 aesKey iv _ (utf8Encode_lt_256 p)),
    btoa_b64Text _ (rsaOaepEncrypt_lt_256 pub aesKey hk),
    btoa_b64Text _ hiv]
  rfl

theorem aesGcmDecrypt_tampered (key iv m a b : List Nat) (x y : Nat)
    (hx : x < 256) (hy : y < 256) (hxy : x ≠ y)
    (h : aesGcmEncrypt key iv m = a ++ x :: b) :
    aesGcmDecrypt key iv (a ++ y :: b) = none := by
  rcases List.eq_nil_or_concat b with rfl | ⟨b0, t, rfl⟩
  · unfold aesGcmEncrypt at h
    obtain ⟨rfl, hx2⟩ := List.append_inj' h (by simp)
    have htag : aesTag key iv m = x := by simpa using hx2
    unfold aesGcmDecrypt
    rw [List.getLast?_concat, List.dropLast_concat]
    simp [htag]
    omega
  · simp only [List.concat_eq_append] at h ⊢
    rw [show a ++ x :: (b0 ++ [t]) = (a ++ x :: b0) ++ [t] by simp] at h
    unfold aesGcmEncrypt at h
    obtain ⟨hm, ht⟩ := List.append_inj' h (by simp)
    have htag : aesTag key iv m = t := by simpa using ht
    have hneq : aesTag key iv (a ++ y :: b0) ≠ t := by
      rw [← htag, hm]
      unfold aesTag
      rw [checksum_append, checksum_append]
      simp [checksum]
      omega
    rw [show a ++ y :: (b0 ++ [t]) = (a ++ y :: b0) ++ [t] by simp]
    unfold aesGcmDecrypt
    rw [List.getLast?_concat, List.dropLast_concat]
    simp [Ne.symm hneq]

theorem rsaOaepDecrypt_tampered (seed : Nat) (k a b : List Nat) (x y : Nat)
    (hx : x < 256) (hy : y < 256) (hxy : x ≠ y)
    (h : rsaOaepEncrypt (EncryptionService.generateKeyPair seed).1 k = a ++ x :: b) :
    rsaOaepDecrypt (EncryptionService.generateKeyPair seed).2 (a ++ y :: b) = none := by
  simp only [EncryptionService.generateKeyPair] at h ⊢
  rcases List.eq_nil_or_concat b with rfl | ⟨b0, t, rfl⟩
  · unfold rsaOaepEncrypt at h
    obtain ⟨rfl, hx2⟩ := List.append_inj' h (by simp)
    have htag : rsaWrapTag (2 * seed) k = x := by simpa using hx2
    unfold rsaOaepDecrypt
    rw [List.getLast?_concat, List.dropLast_concat]
    rw [show 2 * seed + 1 - 1 = 2 * seed by omega]
    simp [htag]
    omega
  · simp only [List.concat_eq_append] at h ⊢
    rw [show a ++ x :: (b0 ++ [t]) = (a ++ x :: b0) ++ [t] by simp] at h
    unfold rsaOaepEncrypt at h
    obtain ⟨hk2, ht⟩ := List.append_inj' h (by simp)
    have htag : rsaWrapTag (2 * seed) k = t := by simpa using ht
    have hneq : rsaWrapTag (2 * seed) (a ++ y :: b0) ≠ t := by
      rw [← htag, hk2]
      unfold rsaWrapTag
      rw [checksum_append, checksum_append]
      simp [checksum]
      omega
    rw [show a ++ y :: (b0 ++ [t]) = (a ++ y :: b0) ++ [t] by simp]
    unfold rsaOaepDecrypt
    rw [List.getLast?_concat, List.dropLast_concat]
    rw [show 2 * seed + 1 - 1 = 2 * seed by omega]
    simp [Ne.symm hneq]

theorem aesGcmDecrypt_wrongIv (key m a b : List Nat) (x y : Nat)
    (hx : x < 256) (hy : y < 256) (hxy : x ≠ y) :
    aesGcmDecrypt key (a ++ y :: b) (aesGcmEncrypt key (a ++ x :: b) m) = none := by
  unfold aesGcmEncrypt aesGcmDecrypt
  rw [List.getLast?_concat, List.dropLast_concat]
  have hne : aesTag key (a ++ x :: b) m ≠ aesTag key (a ++ y :: b) m := by
    unfold aesTag
    rw [checksum_append, checksum_append]
    simp [checksum]
    omega
  simp [hne]

/-! ## Claims -/

/-- C1: for every plaintext string `p` (including the empty string and
strings with multi-byte Unicode) and every key pair produced by
`generateKeyPair`, encrypting `p` for the pair's public key and
decrypting with the pair's private key stored as the local private key
returns exactly `p`.  The AES key bytes and IV bytes are arbitrary
byte-valued randomness. -/
theorem encrypt_decrypt_roundtrip (p : String) (seed : Nat) (aesKey iv : List Nat)
    (publicSlot : Option Nat)
    (hk : ∀ t ∈ aesKey, t < 256) (hiv : ∀ t ∈ iv, t < 256) :
    ∃ em, EncryptionService.encryptMessage p (EncryptionService.generateKeyPair seed).1
        aesKey iv = some em ∧
      EncryptionService.decryptMessage
        { privateKey := some (EncryptionService.generateKeyPair seed).2,
          publicKey := publicSlot } em = .ok p := by
  refine ⟨_, encryptMessage_eq p (EncryptionService.generateKeyPair seed).1 aesKey iv hk hiv, ?_⟩
  have h1 : ∀ t ∈ rsaOaepEncrypt (EncryptionService.generateKeyPair seed).1 aesKey, t < 256 :=
    rsaOaepEncrypt_lt_256 _ aesKey hk
  have h2 : ∀ t ∈ aesGcmEncrypt aesKey iv (utf8Encode p), t < 256 :=
    aesGcmEncrypt_lt_256 aesKey iv _ (utf8Encode_lt_256 p)
  simp only [EncryptionService.decryptMessage, EncryptionService.getPrivateKey,
    EncryptionService.base64ToArrayBuffer, atob_b64Text _ h1, atob_b64Text _ h2,
    atob_b64Text _ hiv, rsaOaepDecrypt_encrypt, aesGcmDecrypt_encrypt, utf8_roundtrip]

/-- Witness for C1 at a concrete multi-byte plaintext, seed, AES key and IV. -/
theorem encrypt_decrypt_roundtrip_witness :
    (∀ t ∈ [7, 255], t < 256) ∧ (∀ t ∈ [0, 1, 2, 3, 4, 5, 6, 7, 8, 9, 10, 11], t < 256) ∧
    ∃ em, EncryptionService.encryptMessage "héllo✓" (EncryptionService.generateKeyPair 3).1
        [7, 255] [0, 1, 2, 3, 4, 5, 6, 7, 8, 9, 10, 11] = some em ∧
      EncryptionService.decryptMessage
        { privateKey := some (EncryptionService.generateKeyPair 3).2, publicKey := none } em =
        .ok "héllo✓" :=
  ⟨by decide, by decide,
    encrypt_decrypt_roundtrip "héllo✓" 3 [7, 255] [0, 1, 2, 3, 4, 5, 6, 7, 8, 9, 10, 11]
      none (by decide) (by decide)⟩

/-- C4: decoding is a left inverse of encoding on every byte sequence,
including the empty one: `base64ToArrayBuffer` recovers exactly the bytes
`arrayBufferToBase64` was given. -/
theorem base64_roundtrip (b : List Nat) (h : ∀ x ∈ b, x < 256) :
    ∃ s, EncryptionService.arrayBufferToBase64 b = some s ∧
      EncryptionService.base64ToArrayBuffer s = some b :=
  ⟨b64Text b, btoa_b64Text b h, atob_b64Text b h⟩

/-- Witness for C4 at a concrete byte sequence and at the empty sequence. -/
theorem base64_roundtrip_witness :
    ((∀ x ∈ [0, 255, 77, 1], x < 256) ∧
      ∃ s, EncryptionService.arrayBufferToBase64 [0, 255, 77, 1] = some s ∧
        EncryptionService.base64ToArrayBuffer s = some [0, 255, 77, 1]) ∧
    ((∀ x ∈ ([] : List Nat), x < 256) ∧
      ∃ s, EncryptionService.arrayBufferToBase64 [] = some s ∧
        EncryptionService.base64ToArrayBuffer s = some []) :=
  ⟨⟨by decide, base64_roundtrip [0, 255, 77, 1] (by decide)⟩,
   ⟨by decide, base64_roundtrip [] (by decide)⟩⟩

/-- C6: after `clearKeys`, `hasKeys` is false and decrypting any envelope
fails with the key-not-found error, in every storage state. -/
theorem clear_lockout (st : Storage) (em : EncryptedMessage) :
    EncryptionService.hasKeys (EncryptionService.clearKeys st) = false ∧
    EncryptionService.decryptMessage (EncryptionService.clearKeys st) em =
      .error .keyNotFound :=
  ⟨rfl, rfl⟩

/-- C5 counterexample: in the storage state with a private key but no
stored public key, `hasKeys` is true yet `initializeEncryption`
regenerates the pair and overwrites the stored private key. -/
theorem initialize_not_idempotent_counterexample :
    EncryptionService.hasKeys { privateKey := some 5, publicKey := none } = true ∧
    (EncryptionService.initializeEncryption
        { privateKey := some 5, publicKey := none } 0).2.privateKey ≠
      ({ privateKey := some 5, publicKey := none } : Storage).privateKey := by
  decide

/-- C5 amended: when both a private and a public key are stored,
`initializeEncryption` returns the stored public key and leaves storage
unchanged; and two successive calls without an intervening `clearKeys`
return the same public key both times, from any starting state. -/
theorem initialize_idempotent (st : Storage) (pub seed : Nat)
    (hk : EncryptionService.hasKeys st = true)
    (hp : EncryptionService.getPublicKey st = some pub) :
    EncryptionService.initializeEncryption st seed = (pub, st) ∧
    ∀ (st0 : Storage) (s1 s2 : Nat),
      (EncryptionService.initializeEncryption
          (EncryptionService.initializeEncryption st0 s1).2 s2).1 =
        (EncryptionService.initializeEncryption st0 s1).1 := by
  constructor
  · simp [EncryptionService.initializeEncryption, hk, EncryptionService.getPublicKey] at hp ⊢
    simp [hp]
  · intro st0 s1 s2
    rcases st0 with ⟨pk, pb⟩
    cases pk <;> cases pb <;>
      simp [EncryptionService.initializeEncryption, EncryptionService.hasKeys,
        EncryptionService.getPublicKey, EncryptionService.generateKeyPair,
        EncryptionService.storePrivateKey, EncryptionService.storePublicKey]

/-- Witness for C5 amended at a concrete stored pair. -/
theorem initialize_idempotent_witness :
    EncryptionService.hasKeys { privateKey := some 9, publicKey := some 8 } = true ∧
    EncryptionService.getPublicKey { privateKey := some 9, publicKey := some 8 } = some 8 ∧
    EncryptionService.initializeEncryption { privateKey := some 9, publicKey := some 8 } 4 =
      (8, { privateKey := some 9, publicKey := some 8 }) ∧
    (EncryptionService.initializeEncryption
        (EncryptionService.initializeEncryption { privateKey := none, publicKey := none } 4).2
        6).1 =
      (EncryptionService.initializeEncryption { privateKey := none, publicKey := none } 4).1 :=
  ⟨by decide, by decide,
    (initialize_idempotent { privateKey := some 9, publicKey := some 8 } 8 4
      (by decide) (by decide)).1,
    (initialize_idempotent { privateKey := some 9, publicKey := some 8 } 8 4
      (by decide) (by decide)).2 { privateKey := none, publicKey := none } 4 6⟩

/-- C7: a stored record lacking the `encrypted_key` or the `iv` column is
returned by `getMessages` with its `content` field verbatim as the
message content, the other fields copied over. -/
theorem legacy_record_passthrough (st : Storage) (userId contactId : String)
    (rows : List MessageRow) (i : Nat) (hi : i < rows.length)
    (hleg : (rows.get ⟨i, hi⟩).encrypted_key = none ∨ (rows.get ⟨i, hi⟩).iv = none) :
    (ChatService.getMessages st userId contactId rows).get? i =
      some { id := (rows.get ⟨i, hi⟩).id, senderId := (rows.get ⟨i, hi⟩).sender_id,
             receiverId := (rows.get ⟨i, hi⟩).receiver_id,
             content := (rows.get ⟨i, hi⟩).content,
             timestamp := (rows.get ⟨i, hi⟩).created_at,
             isRead := (rows.get ⟨i, hi⟩).is_read } := by
  unfold ChatService.getMessages
  rw [List.get?_map, List.get?_eq_get hi]
  simp only [List.get_eq_getElem] at hleg
  rcases hleg with h | h
  · simp [ChatService.decryptRow, h, truthy]
  · simp [ChatService.decryptRow, h, truthy]

/-- Witness for C7 at a concrete legacy row. -/
theorem legacy_record_passthrough_witness :
    (0 : Nat) < ([{ id := 4, sender_id := "a", receiver_id := "b", content := "old msg", encrypted_key := none, iv := none, is_read := true, created_at := 11 }] : List MessageRow).length ∧
    (ChatService.getMessages { privateKey := none, publicKey := none } "b" "a" [{ id := 4, sender_id := "a", receiver_id := "b", content := "old msg", encrypted_key := none, iv := none, is_read := true, created_at := 11 }]).get? 0 =
      some { id := 4, senderId := "a", receiverId := "b", content := "old msg", timestamp := 11, isRead := true } :=
  ⟨by decide,
    legacy_record_passthrough { privateKey := none, publicKey := none } "b" "a" [{ id := 4, sender_id := "a", receiver_id := "b", content := "old msg", encrypted_key := none, iv := none, is_read := true, created_at := 11 }] 0 (by decide) (Or.inl rfl)⟩

/-- C8: when decrypting one stored message fails, `getMessages` returns
the visible placeholder as that message's content instead of throwing,
and every other message of the batch is still processed and returned
(the output has one entry per row, each the image of its row). -/
theorem open_failure_localized (st : Storage) (userId contactId : String)
    (rows : List MessageRow) (i : Nat) (hi : i < rows.length) (e : DecryptError)
    (henc : truthy (rows.get ⟨i, hi⟩).encrypted_key = true)
    (hivt : truthy (rows.get ⟨i, hi⟩).iv = true)
    (hrecv : (rows.get ⟨i, hi⟩).receiver_id = userId)
    (herr : EncryptionService.decryptMessage st
        { encryptedContent := (rows.get ⟨i, hi⟩).content,
          encryptedKey := (rows.get ⟨i, hi⟩).encrypted_key.getD "",
          iv := (rows.get ⟨i, hi⟩).iv.getD "" } = .error e) :
    (ChatService.getMessages st userId contactId rows).length = rows.length ∧
    (ChatService.getMessages st userId contactId rows).get? i =
      some { id := (rows.get ⟨i, hi⟩).id, senderId := (rows.get ⟨i, hi⟩).sender_id,
             receiverId := (rows.get ⟨i, hi⟩).receiver_id,
             content := "[Encrypted message - unable to decrypt]",
             timestamp := (rows.get ⟨i, hi⟩).created_at,
             isRead := (rows.get ⟨i, hi⟩).is_read } ∧
    ∀ j, (ChatService.getMessages st userId contactId rows).get? j =
      (rows.get? j).map (ChatService.decryptRow st userId) := by
  refine ⟨by simp [ChatService.getMessages], ?_, fun j => by
    simp [ChatService.getMessages, List.get?_map]⟩
  unfold ChatService.getMessages
  rw [List.get?_map, List.get?_eq_get hi]
  simp only [List.get_eq_getElem] at henc hivt hrecv herr
  simp [ChatService.decryptRow, henc, hivt, hrecv, herr]

/-- Witness for C8: a row marked encrypted whose decryption fails with
`keyNotFound` because no private key is stored. -/
theorem open_failure_localized_witness :
    (0 : Nat) < ([{ id := 2, sender_id := "a", receiver_id := "b", content := "zzzz", encrypted_key := some "kkkk", iv := some "vvvv", is_read := false, created_at := 3 }] : List MessageRow).length ∧
    (ChatService.getMessages { privateKey := none, publicKey := none } "b" "a" [{ id := 2, sender_id := "a", receiver_id := "b", content := "zzzz", encrypted_key := some "kkkk", iv := some "vvvv", is_read := false, created_at := 3 }]).get? 0 =
      some { id := 2, senderId := "a", receiverId := "b", content := "[Encrypted message - unable to decrypt]", timestamp := 3, isRead := false } :=
  ⟨by decide,
    (open_failure_localized { privateKey := none, publicKey := none } "b" "a" [{ id := 2, sender_id := "a", receiver_id := "b", content := "zzzz", encrypted_key := some "kkkk", iv := some "vvvv", is_read := false, created_at := 3 }] 0 (by decide) .keyNotFound (by decide) (by decide) (by decide) rfl).2.1⟩

/-- C9: `getMessages` decrypts a row only when its `receiver_id` is the
querying user; an encrypted row the user sent (receiver differs) is
returned with its stored content — the base64 ciphertext — unchanged,
neither decrypted nor replaced by the placeholder. -/
theorem sent_copy_passthrough (st : Storage) (userId contactId : String)
    (rows : List MessageRow) (i : Nat) (hi : i < rows.length)
    (henc : truthy (rows.get ⟨i, hi⟩).encrypted_key = true)
    (hivt : truthy (rows.get ⟨i, hi⟩).iv = true)
    (hrecv : (rows.get ⟨i, hi⟩).receiver_id ≠ userId) :
    (ChatService.getMessages st userId contactId rows).get? i =
      some { id := (rows.get ⟨i, hi⟩).id, senderId := (rows.get ⟨i, hi⟩).sender_id,
             receiverId := (rows.get ⟨i, hi⟩).receiver_id,
             content := (rows.get ⟨i, hi⟩).content,
             timestamp := (rows.get ⟨i, hi⟩).created_at,
             isRead := (rows.get ⟨i, hi⟩).is_read } := by
  unfold ChatService.getMessages
  rw [List.get?_map, List.get?_eq_get hi]
  simp only [List.get_eq_getElem] at hrecv
  simp [ChatService.decryptRow, hrecv]

/-- Witness for C9: an encrypted row sent by the querying user `a`. -/
theorem sent_copy_passthrough_witness :
    (0 : Nat) < ([{ id := 6, sender_id := "a", receiver_id := "b", content := "Y2lwaGVy", encrypted_key := some "a2V5", iv := some "aXY=", is_read := false, created_at := 9 }] : List MessageRow).length ∧
    (ChatService.getMessages { privateKey := some 1, publicKey := some 0 } "a" "b" [{ id := 6, sender_id := "a", receiver_id := "b", content := "Y2lwaGVy", encrypted_key := some "a2V5", iv := some "aXY=", is_read := false, created_at := 9 }]).get? 0 =
      some { id := 6, senderId := "a", receiverId := "b", content := "Y2lwaGVy", timestamp := 9, isRead := false } :=
  ⟨by decide,
    sent_copy_passthrough { privateKey := some 1, publicKey := some 0 } "a" "b" [{ id := 6, sender_id := "a", receiver_id := "b", content := "Y2lwaGVy", encrypted_key := some "a2V5", iv := some "aXY=", is_read := false, created_at := 9 }] 0 (by decide) (by decide) (by decide) (by decide)⟩

/-- C2 counterexample: invoked with an absent recipient public key,
`ChatService.sendMessage` does not fail — it inserts a row whose
`content` is the plaintext (with empty `encrypted_key`/`iv`) after only
a console warning. -/
theorem send_without_key_persists_plaintext :
    ∃ row, (ChatService.sendMessage { senderId := "alice", receiverId := "bob", content := "hello", isRead := false } none [] [] 1 0 true).1 = some row ∧
      row.content = "hello" ∧ row.encrypted_key = some "" :=
  ⟨{ id := 1, sender_id := "alice", receiver_id := "bob", content := "hello", encrypted_key := some "", iv := some "", is_read := false, created_at := 0 }, rfl, rfl, rfl⟩

/-- C2 amended: the guard lives in the caller.  When the recipient's
public key is absent, `ChatContext.sendMessage` returns without invoking
`ChatService.sendMessage`, so no row is persisted and the message list
is unchanged; `ChatService.sendMessage` itself, called directly with an
absent key, persists the plaintext unencrypted after a warning. -/
theorem no_recipient_key_blocks_send (currentUser : Option String)
    (contacts : List Contact) (messages : List Message) (messageData : NewMessage)
    (aesKey ivB : List Nat) (newId now : Nat) (dbOk : Bool)
    (h : (contacts.find? (fun c => c.id == messageData.receiverId)).bind
        (fun c => c.publicKey) = none) :
    ChatContext.sendMessage currentUser contacts messages messageData aesKey ivB
      newId now dbOk = (none, messages) := by
  unfold ChatContext.sendMessage
  cases currentUser with
  | none => rfl
  | some u => simp [h]

/-- Witness for C2 amended: the recipient is a contact without a public key. -/
theorem no_recipient_key_blocks_send_witness :
    ((([{ id := "bob", publicKey := none }] : List Contact).find? (fun c => c.id == "bob")).bind (fun c => c.publicKey) = none) ∧
    ChatContext.sendMessage (some "alice") [{ id := "bob", publicKey := none }] [] { senderId := "alice", receiverId := "bob", content := "hi", isRead := false } [1] [2] 5 6 true = (none, []) :=
  ⟨by decide,
    no_recipient_key_blocks_send (some "alice") [{ id := "bob", publicKey := none }] [] { senderId := "alice", receiverId := "bob", content := "hi", isRead := false } [1] [2] 5 6 true (by decide)⟩

/-- C10: on a successful encrypted send, the persisted row's `content` is
the ciphertext while the returned `Message` carries the original
plaintext, with sender, receiver and read flag reflected unchanged. -/
theorem send_returns_plaintext (message : NewMessage) (pk : Nat) (aesKey ivB : List Nat)
    (newId now : Nat)
    (hk : ∀ t ∈ aesKey, t < 256) (hiv : ∀ t ∈ ivB, t < 256) :
    ∃ em, EncryptionService.encryptMessage message.content pk aesKey ivB = some em ∧
      ChatService.sendMessage message (some pk) aesKey ivB newId now true =
        (some { id := newId, sender_id := message.senderId,
                receiver_id := message.receiverId, content := em.encryptedContent,
                encrypted_key := some em.encryptedKey, iv := some em.iv,
                is_read := message.isRead, created_at := now },
         some { id := newId, senderId := message.senderId,
                receiverId := message.receiverId, content := message.content,
                timestamp := now, isRead := message.isRead }) := by
  have he := encryptMessage_eq message.content pk aesKey ivB hk hiv
  refine ⟨_, he, ?_⟩
  simp [ChatService.sendMessage, he]

/-- Witness for C10 at a concrete message, key and randomness. -/
theorem send_returns_plaintext_witness :
    (∀ t ∈ [9], t < 256) ∧ (∀ t ∈ [3, 4], t < 256) ∧
    ∃ em, EncryptionService.encryptMessage "hey" 12 [9] [3, 4] = some em ∧
      ChatService.sendMessage { senderId := "alice", receiverId := "bob", content := "hey", isRead := false } (some 12) [9] [3, 4] 20 21 true =
        (some { id := 20, sender_id := "alice", receiver_id := "bob", content := em.encryptedContent, encrypted_key := some em.encryptedKey, iv := some em.iv, is_read := false, created_at := 21 },
         some { id := 20, senderId := "alice", receiverId := "bob", content := "hey", timestamp := 21, isRead := false }) :=
  ⟨by decide, by decide,
    send_returns_plaintext { senderId := "alice", receiverId := "bob", content := "hey", isRead := false } 12 [9] [3, 4] 20 21 (by decide) (by decide)⟩

/-- C3: for an envelope sealed by `encryptMessage` (first conjunct:
the envelope's three fields are the encodings of the ciphertext, wrapped
key and nonce buffers), replacing any single byte of the ciphertext, of
the wrapped key, or of the nonce by a different byte value makes
`decryptMessage` fail with `decryptionFailed`; it never returns altered
plaintext. -/
theorem tampered_envelope_rejected (p : String) (seed : Nat) (aesKey iv : List Nat)
    (publicSlot : Option Nat)
    (hkey : ∀ t ∈ aesKey, t < 256) (hiv : ∀ t ∈ iv, t < 256)
    (a b : List Nat) (x y : Nat)
    (hx : x < 256) (hy : y < 256) (hxy : x ≠ y)
    (ha : ∀ t ∈ a, t < 256) (hb : ∀ t ∈ b, t < 256) :
    EncryptionService.encryptMessage p (EncryptionService.generateKeyPair seed).1 aesKey iv =
      some { encryptedContent := b64Text (aesGcmEncrypt aesKey iv (utf8Encode p)),
             encryptedKey :=
               b64Text (rsaOaepEncrypt (EncryptionService.generateKeyPair seed).1 aesKey),
             iv := b64Text iv } ∧
    (aesGcmEncrypt aesKey iv (utf8Encode p) = a ++ x :: b →
      EncryptionService.decryptMessage
        { privateKey := some (EncryptionService.generateKeyPair seed).2,
          publicKey := publicSlot }
        { encryptedContent := b64Text (a ++ y :: b),
          encryptedKey :=
            b64Text (rsaOaepEncrypt (EncryptionService.generateKeyPair seed).1 aesKey),
          iv := b64Text iv } = .error .decryptionFailed) ∧
    (rsaOaepEncrypt (EncryptionService.generateKeyPair seed).1 aesKey = a ++ x :: b →
      EncryptionService.decryptMessage
        { privateKey := some (EncryptionService.generateKeyPair seed).2,
          publicKey := publicSlot }
        { encryptedContent := b64Text (aesGcmEncrypt aesKey iv (utf8Encode p)),
          encryptedKey := b64Text (a ++ y :: b),
          iv := b64Text iv } = .error .decryptionFailed) ∧
    (iv = a ++ x :: b →
      EncryptionService.decryptMessage
        { privateKey := some (EncryptionService.generateKeyPair seed).2,
          publicKey := publicSlot }
        { encryptedContent := b64Text (aesGcmEncrypt aesKey iv (utf8Encode p)),
          encryptedKey :=
            b64Text (rsaOaepEncrypt (EncryptionService.generateKeyPair seed).1 aesKey),
          iv := b64Text (a ++ y :: b) } = .error .decryptionFailed) := by
  have hmod : ∀ t ∈ a ++ y :: b, t < 256 := mem_modified_lt_256 a b y ha hb hy
  have hwk : ∀ t ∈ rsaOaepEncrypt (EncryptionService.generateKeyPair seed).1 aesKey, t < 256 :=
    rsaOaepEncrypt_lt_256 _ aesKey hkey
  have hct : ∀ t ∈ aesGcmEncrypt aesKey iv (utf8Encode p), t < 256 :=
    aesGcmEncrypt_lt_256 aesKey iv _ (utf8Encode_lt_256 p)
  refine ⟨encryptMessage_eq p (EncryptionService.generateKeyPair seed).1 aesKey iv hkey hiv,
    ?_, ?_, ?_⟩
  · intro h
    simp only [EncryptionService.decryptMessage, EncryptionService.getPrivateKey,
      EncryptionService.base64ToArrayBuffer, atob_b64Text _ hwk, atob_b64Text _ hmod,
      atob_b64Text _ hiv, rsaOaepDecrypt_encrypt,
      aesGcmDecrypt_tampered aesKey iv (utf8Encode p) a b x y hx hy hxy h]
  · intro h
    simp only [EncryptionService.decryptMessage, EncryptionService.getPrivateKey,
      EncryptionService.base64ToArrayBuffer, atob_b64Text _ hmod,
      rsaOaepDecrypt_tampered seed aesKey a b x y hx hy hxy h]
  · intro h
    subst h
    simp only [EncryptionService.decryptMessage, EncryptionService.getPrivateKey,
      EncryptionService.base64ToArrayBuffer, atob_b64Text _ hct, atob_b64Text _ hwk,
      atob_b64Text _ hmod, rsaOaepDecrypt_encrypt,
      aesGcmDecrypt_wrongIv aesKey (utf8Encode p) a b x y hx hy hxy]

/-- Witness for C3: sealing "A" with AES key byte 1 and nonce byte 2
yields ciphertext bytes `[65, 68]`; flipping the final byte to 69 makes
decryption fail with `decryptionFailed`. -/
theorem tampered_envelope_rejected_witness :
    (∀ t ∈ [(1 : Nat)], t < 256) ∧ (∀ t ∈ [(2 : Nat)], t < 256) ∧
    aesGcmEncrypt [1] [2] (utf8Encode "A") = [65] ++ 68 :: [] ∧
    EncryptionService.decryptMessage
      { privateKey := some (EncryptionService.generateKeyPair 3).2, publicKey := none }
      { encryptedContent := b64Text ([65] ++ 69 :: []),
        encryptedKey := b64Text (rsaOaepEncrypt (EncryptionService.generateKeyPair 3).1 [1]),
        iv := b64Text [2] } = .error .decryptionFailed :=
  ⟨by decide, by decide, by decide,
    (tampered_envelope_rejected "A" 3 [1] [2] none (by decide) (by decide) [65] [] 68 69
      (by decide) (by decide) (by decide) (by decide) (by decide)).2.1 (by decide)⟩
